import Mathlib

/-!
Verification of the karting data reconciliation layer.

The Python sources are embedded shallowly:

* lap-time texts are `List Char`; a pandas missing value (`NaN` / `NaT`) is
  `Option.none` at the layer where the source checks `pd.isna`;
* numeric values are `ℚ` (floats) and `ℤ` (ints);
* the SQL store is a record of lists; `session.exec(select(...)).first()` is
  `List.find?`, mutating the object returned by `first()` is `updateFirst`;
* `session.commit()` may raise at the DB boundary; this is modelled by a
  commit oracle `ℕ → Bool` consulted once per commit call, in order; the
  `except: session.rollback(); continue` branches revert to the last
  committed state, exactly as in the source.
-/

/-- Python `str.split(sep)` for a one-character separator: splits on every
occurrence and keeps empty segments, so `"".split(":") == [""]`. -/
def splitOnChar (sep : Char) : List Char → List (List Char)
  | [] => [[]]
  | c :: rest =>
    match splitOnChar sep rest with
    | [] => if c = sep then [[], []] else [[c]]
    | h :: t => if c = sep then [] :: h :: t else (c :: h) :: t

/-- The character for a decimal digit, as Python's `str` formatting emits it. -/
def digitChar (d : ℕ) : Char := Char.ofNat (48 + d)

/-- Decimal digit test on a character (`'0'` to `'9'`). -/
def isDigitChar (c : Char) : Bool := 48 ≤ c.toNat && c.toNat ≤ 57

/-- Value of a string of decimal digit characters, most significant first. -/
def digitsVal (l : List Char) : ℕ := l.foldl (fun a c => 10 * a + (c.toNat - 48)) 0

/-- Big-endian digit list of a natural number, as Python `f"{n}"` renders it
(`renderNatAux 0 = [0]`, mirroring `"0"`). -/
def renderNatAux (n : ℕ) : List ℕ :=
  if _h : n < 10 then [n]
  else renderNatAux (n / 10) ++ [n % 10]
decreasing_by exact Nat.div_lt_self (by omega) (by omega)

/-- Python `f"{n}"` for a natural number. -/
def renderNat (n : ℕ) : List Char := (renderNatAux n).map digitChar

/-- Python `f"{i}"` for an int (a leading `'-'` for negative values). -/
def renderInt (i : ℤ) : List Char :=
  if i < 0 then '-' :: renderNat i.natAbs else renderNat i.toNat

/-- Python `f"{n:02d}"`: pad with `'0'` to width two. -/
def pad2 (n : ℕ) : List Char := if n < 10 then '0' :: renderNat n else renderNat n

/-- Python `f"{n:03d}"`: pad with `'0'` to width three. -/
def pad3 (n : ℕ) : List Char :=
  if n < 10 then '0' :: '0' :: renderNat n
  else if n < 100 then '0' :: renderNat n
  else renderNat n

/-- A nonempty all-digit segment parsed to its value; `none` otherwise. -/
def parseNatSeg (l : List Char) : Option ℕ :=
  if l.isEmpty then none
  else if l.all isDigitChar then some (digitsVal l) else none

/-- Python `int(s)` on a string: an optional sign followed by digits.
(Surrounding whitespace and `_` digit separators, which Python also accepts,
are outside the modelled inputs.) -/
def parsePyInt (l : List Char) : Option ℤ :=
  match l with
  | [] => none
  | c :: rest =>
    if c = '-' then (parseNatSeg rest).map (fun n => -(n : ℤ))
    else if c = '+' then (parseNatSeg rest).map (fun n => (n : ℤ))
    else (parseNatSeg (c :: rest)).map (fun n => (n : ℤ))

/-- Unsigned decimal part of Python `float(s)`: digits with at most one
`'.'`, at least one digit in total (`float(".") ` and `float("")` raise). -/
def parsePyFloatBody (l : List Char) : Option ℚ :=
  match splitOnChar '.' l with
  | [ip] => (parseNatSeg ip).map (fun n => (n : ℚ))
  | [ip, fp] =>
    if ip.isEmpty && fp.isEmpty then none
    else if ip.all isDigitChar && fp.all isDigitChar then
      some ((digitsVal ip : ℚ) + (digitsVal fp : ℚ) / 10 ^ fp.length)
    else none
  | _ => none

/-- Python `float(s)` on a string, for sign-and-decimal forms (exponents,
`inf`/`nan` and whitespace are outside the modelled inputs). -/
def parsePyFloat (l : List Char) : Option ℚ :=
  match l with
  | [] => none
  | c :: rest =>
    if c = '-' then (parsePyFloatBody rest).map (fun q => -q)
    else if c = '+' then parsePyFloatBody rest
    else parsePyFloatBody (c :: rest)

/-- `backend/utils.py::convert_time_to_seconds`. `none` stands for a pandas
missing value (the `pd.isna` guard) and for the `except: return np.nan`
outcome; the input is split on `':'` when one is present, then the seconds
part on `'.'`, and a two-way unpacking failure of either split raises. -/
def convert_time_to_seconds : Option (List Char) → Option ℚ
  | none => none
  | some s =>
    if ':' ∈ s then
      match splitOnChar ':' s with
      | [m, rest] =>
        match splitOnChar '.' rest with
        | [sec, ms] => do
          let mv ← parsePyFloat m
          let sv ← parsePyFloat sec
          let msv ← parsePyFloat ms
          pure (mv * 60 + sv + msv / 1000)
        | _ => none
      | _ => none
    else
      match splitOnChar '.' s with
      | [sec, ms] => do
        let sv ← parsePyFloat sec
        let msv ← parsePyFloat ms
        pure (sv + msv / 1000)
      | _ => none

/-- `backend/utils.py::convert_seconds_to_time`. `none` (pandas `NaN`)
renders as `"N/A"`; otherwise `int(seconds // 60)`, `seconds % 60` and a
truncated `(remaining % 1) * 1000` are rendered as `f"{m}:{s:02d}.{ms:03d}"`. -/
def convert_seconds_to_time : Option ℚ → List Char
  | none => ['N', '/', 'A']
  | some x =>
    let minutes : ℤ := ⌊x / 60⌋
    let remaining : ℚ := x - 60 * minutes
    let secsInt : ℕ := (⌊remaining⌋).toNat
    let ms : ℕ := (⌊(remaining - secsInt) * 1000⌋).toNat
    renderInt minutes ++ (':' :: (pad2 secsInt ++ ('.' :: pad3 ms)))

/-- `frontend/src/data_analysis.py::KartingDataAnalyzer._convert_time_to_seconds`:
requires a colon (`minutes, seconds = time_str.split(":")`), parses the three
segments with `int(...)`, and returns `0.0` on any failure. -/
def frontendTimeToSeconds (s : List Char) : ℚ :=
  match splitOnChar ':' s with
  | [m, rest] =>
    match splitOnChar '.' rest with
    | [sec, ms] =>
      match parsePyInt m, parsePyInt sec, parsePyInt ms with
      | some mv, some sv, some msv => (mv : ℚ) * 60 + (sv : ℚ) + (msv : ℚ) / 1000
      | _, _, _ => 0
    | _ => 0
  | _ => 0

/-- Value of a big-endian digit list. -/
def natVal (l : List ℕ) : ℕ := l.foldl (fun a d => 10 * a + d) 0

theorem renderNatAux_lt10 (n : ℕ) : ∀ d ∈ renderNatAux n, d < 10 := by
  induction n using Nat.strong_induction_on with
  | _ n ih =>
    rw [renderNatAux]
    split
    · intro d hd
      simp only [List.mem_singleton] at hd
      omega
    · intro d hd
      rcases List.mem_append.1 hd with h | h
      · exact ih (n / 10) (Nat.div_lt_self (by omega) (by omega)) d h
      · simp only [List.mem_singleton] at h
        omega

theorem renderNatAux_ne_nil (n : ℕ) : renderNatAux n ≠ [] := by
  rw [renderNatAux]
  split
  · simp
  · simp

theorem natVal_append_singleton (l : List ℕ) (d : ℕ) :
    natVal (l ++ [d]) = 10 * natVal l + d := by
  simp [natVal, List.foldl_append]

theorem natVal_renderNatAux (n : ℕ) : natVal (renderNatAux n) = n := by
  induction n using Nat.strong_induction_on with
  | _ n ih =>
    rw [renderNatAux]
    split
    · simp [natVal]
    · rw [natVal_append_singleton, ih (n / 10) (Nat.div_lt_self (by omega) (by omega))]
      omega

theorem toNat_digitChar {d : ℕ} (h : d < 10) : (digitChar d).toNat = 48 + d := by
  interval_cases d <;> decide

theorem isDigitChar_digitChar {d : ℕ} (h : d < 10) : isDigitChar (digitChar d) = true := by
  interval_cases d <;> decide

theorem digitsVal_map_digitChar (l : List ℕ) (h : ∀ d ∈ l, d < 10) :
    digitsVal (l.map digitChar) = natVal l := by
  suffices H : ∀ a : ℕ,
      (l.map digitChar).foldl (fun a c => 10 * a + (c.toNat - 48)) a =
        l.foldl (fun a d => 10 * a + d) a by
    exact H 0
  induction l with
  | nil => intro a; rfl
  | cons d t iht =>
    intro a
    simp only [List.map_cons, List.foldl_cons]
    rw [toNat_digitChar (h d (List.mem_cons_self d t))]
    have : 48 + d - 48 = d := by omega
    rw [this]
    exact iht (fun e he => h e (List.mem_cons_of_mem d he)) _

theorem digitsVal_renderNat (n : ℕ) : digitsVal (renderNat n) = n := by
  rw [renderNat, digitsVal_map_digitChar _ (renderNatAux_lt10 n), natVal_renderNatAux]

theorem renderNat_ne_nil (n : ℕ) : renderNat n ≠ [] := by
  simp [renderNat, renderNatAux_ne_nil n]

theorem all_digits_renderNat (n : ℕ) : (renderNat n).all isDigitChar = true := by
  rw [List.all_eq_true]
  intro c hc
  rcases List.mem_map.1 hc with ⟨d, hd, rfl⟩
  exact isDigitChar_digitChar (renderNatAux_lt10 n d hd)

theorem not_mem_of_all_digits {c : Char} {l : List Char}
    (hl : l.all isDigitChar = true) (hc : isDigitChar c = false) : c ∉ l := by
  intro hmem
  rw [List.all_eq_true] at hl
  rw [hl c hmem] at hc
  exact absurd hc (by simp)

theorem isDigitChar_zero : isDigitChar '0' = true := by decide

theorem digitsVal_cons_zero (l : List Char) : digitsVal ('0' :: l) = digitsVal l := by
  simp [digitsVal]

theorem all_digits_pad2 (n : ℕ) : (pad2 n).all isDigitChar = true := by
  rw [pad2]
  split
  · simp [all_digits_renderNat n, isDigitChar_zero]
  · exact all_digits_renderNat n

theorem pad2_ne_nil (n : ℕ) : pad2 n ≠ [] := by
  rw [pad2]; split
  · simp
  · exact renderNat_ne_nil n

theorem digitsVal_pad2 (n : ℕ) : digitsVal (pad2 n) = n := by
  rw [pad2]; split
  · rw [digitsVal_cons_zero, digitsVal_renderNat]
  · exact digitsVal_renderNat n

theorem all_digits_pad3 (n : ℕ) : (pad3 n).all isDigitChar = true := by
  rw [pad3]
  split
  · simp [all_digits_renderNat n, isDigitChar_zero]
  · split
    · simp [all_digits_renderNat n, isDigitChar_zero]
    · exact all_digits_renderNat n

theorem pad3_ne_nil (n : ℕ) : pad3 n ≠ [] := by
  rw [pad3]; split
  · simp
  · split
    · simp
    · exact renderNat_ne_nil n

theorem digitsVal_pad3 (n : ℕ) : digitsVal (pad3 n) = n := by
  rw [pad3]; split
  · rw [digitsVal_cons_zero, digitsVal_cons_zero, digitsVal_renderNat]
  · split
    · rw [digitsVal_cons_zero, digitsVal_renderNat]
    · exact digitsVal_renderNat n

theorem splitOnChar_of_not_mem {sep : Char} {l : List Char} (h : sep ∉ l) :
    splitOnChar sep l = [l] := by
  induction l with
  | nil => rfl
  | cons c t iht =>
    have hc : ¬c = sep := fun he => h (he ▸ List.mem_cons_self c t)
    have ht : sep ∉ t := fun hm => h (List.mem_cons_of_mem c hm)
    rw [splitOnChar, iht ht]
    simp [hc]

theorem splitOnChar_ne_nil (sep : Char) (l : List Char) : splitOnChar sep l ≠ [] := by
  cases l with
  | nil => simp [splitOnChar]
  | cons c t =>
    rw [splitOnChar]
    split <;> split <;> simp_all

theorem splitOnChar_append {sep : Char} {l₁ l₂ : List Char} (h : sep ∉ l₁) :
    splitOnChar sep (l₁ ++ sep :: l₂) = l₁ :: splitOnChar sep l₂ := by
  induction l₁ with
  | nil =>
    simp only [List.nil_append]
    rw [splitOnChar]
    cases hs : splitOnChar sep l₂ with
    | nil => exact absurd hs (splitOnChar_ne_nil sep l₂)
    | cons a t => simp
  | cons c t iht =>
    have hc : ¬c = sep := fun he => h (he ▸ List.mem_cons_self c t)
    have ht : sep ∉ t := fun hm => h (List.mem_cons_of_mem c hm)
    rw [List.cons_append, splitOnChar, iht ht]
    simp [hc]

theorem parseNatSeg_of_digits {l : List Char} (h1 : l ≠ [])
    (h2 : l.all isDigitChar = true) : parseNatSeg l = some (digitsVal l) := by
  rw [parseNatSeg, if_neg (by simpa using h1), if_pos h2]

theorem parsePyFloatBody_of_digits {l : List Char} (h1 : l ≠ [])
    (h2 : l.all isDigitChar = true) : parsePyFloatBody l = some ((digitsVal l : ℚ)) := by
  have hdot : '.' ∉ l := not_mem_of_all_digits h2 (by decide)
  rw [parsePyFloatBody, splitOnChar_of_not_mem hdot]
  simp [parseNatSeg_of_digits h1 h2]

theorem parsePyFloat_of_digits {l : List Char} (h1 : l ≠ [])
    (h2 : l.all isDigitChar = true) : parsePyFloat l = some ((digitsVal l : ℚ)) := by
  cases l with
  | nil => exact absurd rfl h1
  | cons c t =>
    have hc : isDigitChar c = true := by
      rw [List.all_eq_true] at h2
      exact h2 c (List.mem_cons_self c t)
    have hminus : ¬c = '-' := by rintro rfl; exact absurd hc (by decide)
    have hplus : ¬c = '+' := by rintro rfl; exact absurd hc (by decide)
    rw [parsePyFloat, if_neg hminus, if_neg hplus]
    exact parsePyFloatBody_of_digits h1 h2

theorem parsePyInt_of_digits {l : List Char} (h1 : l ≠ [])
    (h2 : l.all isDigitChar = true) : parsePyInt l = some ((digitsVal l : ℤ)) := by
  cases l with
  | nil => exact absurd rfl h1
  | cons c t =>
    have hc : isDigitChar c = true := by
      rw [List.all_eq_true] at h2
      exact h2 c (List.mem_cons_self c t)
    have hminus : ¬c = '-' := by rintro rfl; exact absurd hc (by decide)
    have hplus : ¬c = '+' := by rintro rfl; exact absurd hc (by decide)
    rw [parsePyInt, if_neg hminus, if_neg hplus]
    simp [parseNatSeg_of_digits h1 h2]

/-- Parsing a text of the shape `M:SS.mmm` with all-digit segments. -/
theorem convert_time_to_seconds_of_shape {m s ms : List Char}
    (hm1 : m ≠ []) (hm2 : m.all isDigitChar = true)
    (hs1 : s ≠ []) (hs2 : s.all isDigitChar = true)
    (hms1 : ms ≠ []) (hms2 : ms.all isDigitChar = true) :
    convert_time_to_seconds (some (m ++ (':' :: (s ++ ('.' :: ms))))) =
      some ((digitsVal m : ℚ) * 60 + (digitsVal s : ℚ) + (digitsVal ms : ℚ) / 1000) := by
  have hcolon : ':' ∈ m ++ (':' :: (s ++ ('.' :: ms))) :=
    List.mem_append.2 (Or.inr (List.mem_cons_self _ _))
  have hmc : ':' ∉ m := not_mem_of_all_digits hm2 (by decide)
  have hrest : ':' ∉ s ++ ('.' :: ms) := by
    intro hmem
    rcases List.mem_append.1 hmem with h | h
    · exact (not_mem_of_all_digits hs2 (by decide)) h
    · rcases List.mem_cons.1 h with h' | h'
      · exact absurd h' (by decide)
      · exact (not_mem_of_all_digits hms2 (by decide)) h'
  have hsplit1 : splitOnChar ':' (m ++ (':' :: (s ++ ('.' :: ms)))) =
      [m, s ++ ('.' :: ms)] := by
    rw [splitOnChar_append hmc, splitOnChar_of_not_mem hrest]
  have hsc : '.' ∉ s := not_mem_of_all_digits hs2 (by decide)
  have hsplit2 : splitOnChar '.' (s ++ ('.' :: ms)) = [s, ms] := by
    rw [splitOnChar_append hsc,
      splitOnChar_of_not_mem (not_mem_of_all_digits hms2 (by decide))]
  rw [convert_time_to_seconds, if_pos hcolon, hsplit1]
  simp only [hsplit2, parsePyFloat_of_digits hm1 hm2, parsePyFloat_of_digits hs1 hs2,
    parsePyFloat_of_digits hms1 hms2, Option.bind_some, Option.some_bind]
  rfl

/-- Parsing a text of the shape `SS.mmm` with all-digit segments. -/
theorem convert_time_to_seconds_of_shape2 {s ms : List Char}
    (hs1 : s ≠ []) (hs2 : s.all isDigitChar = true)
    (hms1 : ms ≠ []) (hms2 : ms.all isDigitChar = true) :
    convert_time_to_seconds (some (s ++ ('.' :: ms))) =
      some ((digitsVal s : ℚ) + (digitsVal ms : ℚ) / 1000) := by
  have hrest : ':' ∉ s ++ ('.' :: ms) := by
    intro hmem
    rcases List.mem_append.1 hmem with h | h
    · exact (not_mem_of_all_digits hs2 (by decide)) h
    · rcases List.mem_cons.1 h with h' | h'
      · exact absurd h' (by decide)
      · exact (not_mem_of_all_digits hms2 (by decide)) h'
  have hsc : '.' ∉ s := not_mem_of_all_digits hs2 (by decide)
  have hsplit2 : splitOnChar '.' (s ++ ('.' :: ms)) = [s, ms] := by
    rw [splitOnChar_append hsc,
      splitOnChar_of_not_mem (not_mem_of_all_digits hms2 (by decide))]
  rw [convert_time_to_seconds, if_neg hrest, hsplit2]
  simp only [parsePyFloat_of_digits hs1 hs2, parsePyFloat_of_digits hms1 hms2,
    Option.bind_some, Option.some_bind]
  rfl

theorem convert_seconds_to_time_some (x : ℚ) :
    convert_seconds_to_time (some x) =
      renderInt ⌊x / 60⌋ ++
        (':' :: (pad2 (⌊x - 60 * ((⌊x / 60⌋ : ℤ) : ℚ)⌋).toNat ++
          ('.' :: pad3 (⌊(x - 60 * ((⌊x / 60⌋ : ℤ) : ℚ) -
            (((⌊x - 60 * ((⌊x / 60⌋ : ℤ) : ℚ)⌋).toNat : ℕ) : ℚ)) * 1000⌋).toNat))) := rfl

/-- C4: for every non-negative rational seconds value, formatting with
`convert_seconds_to_time` and parsing back with `convert_time_to_seconds`
recovers the value to within 0.001 seconds (the format truncates the
fractional part to whole milliseconds). -/
theorem C4_time_format_parse_roundtrip (x : ℚ) (hx : 0 ≤ x) :
    ∃ y : ℚ, convert_time_to_seconds (some (convert_seconds_to_time (some x))) = some y ∧
      |y - x| < 1 / 1000 := by
  have hm0 : (0 : ℤ) ≤ ⌊x / 60⌋ := Int.floor_nonneg.2 (by positivity)
  set minutes : ℤ := ⌊x / 60⌋ with hminutes
  set remaining : ℚ := x - 60 * (minutes : ℚ) with hremaining
  have hr0 : 0 ≤ remaining := by
    have h1 : (minutes : ℚ) ≤ x / 60 := Int.floor_le (x / 60)
    rw [hremaining]
    linarith
  have hr60 : remaining < 60 := by
    have h1 : x / 60 < (minutes : ℚ) + 1 := Int.lt_floor_add_one (x / 60)
    rw [hremaining]
    linarith
  have hs0 : (0 : ℤ) ≤ ⌊remaining⌋ := Int.floor_nonneg.2 hr0
  set S : ℕ := (⌊remaining⌋).toNat with hS
  have hScast : ((S : ℕ) : ℚ) = ((⌊remaining⌋ : ℤ) : ℚ) := by
    have := Int.toNat_of_nonneg hs0
    exact_mod_cast congrArg (fun z : ℤ => (z : ℚ)) this
  set frac : ℚ := remaining - (S : ℚ) with hfrac
  have hf0 : 0 ≤ frac := by
    have h1 : ((⌊remaining⌋ : ℤ) : ℚ) ≤ remaining := Int.floor_le remaining
    rw [hfrac, hScast]
    linarith
  have hf1 : frac < 1 := by
    have h1 : remaining < ((⌊remaining⌋ : ℤ) : ℚ) + 1 := Int.lt_floor_add_one remaining
    rw [hfrac, hScast]
    linarith
  have hms0 : (0 : ℤ) ≤ ⌊frac * 1000⌋ := Int.floor_nonneg.2 (by positivity)
  set ms : ℕ := (⌊frac * 1000⌋).toNat with hms
  have hmscast : ((ms : ℕ) : ℚ) = ((⌊frac * 1000⌋ : ℤ) : ℚ) := by
    have := Int.toNat_of_nonneg hms0
    exact_mod_cast congrArg (fun z : ℤ => (z : ℚ)) this
  set M : ℕ := minutes.toNat with hM
  have hMcast : ((M : ℕ) : ℚ) = (minutes : ℚ) := by
    have := Int.toNat_of_nonneg hm0
    exact_mod_cast congrArg (fun z : ℤ => (z : ℚ)) this
  have hfmt : convert_seconds_to_time (some x) =
      renderNat M ++ (':' :: (pad2 S ++ ('.' :: pad3 ms))) := by
    rw [convert_seconds_to_time_some]
    rw [renderInt, if_neg (by omega)]
  refine ⟨(M : ℚ) * 60 + (S : ℚ) + (ms : ℚ) / 1000, ?_, ?_⟩
  · rw [hfmt, convert_time_to_seconds_of_shape (renderNat_ne_nil M) (all_digits_renderNat M)
      (pad2_ne_nil S) (all_digits_pad2 S) (pad3_ne_nil ms) (all_digits_pad3 ms),
      digitsVal_renderNat, digitsVal_pad2, digitsVal_pad3]
  · have hub : ((⌊frac * 1000⌋ : ℤ) : ℚ) ≤ frac * 1000 := Int.floor_le _
    have hlb : frac * 1000 < ((⌊frac * 1000⌋ : ℤ) : ℚ) + 1 := Int.lt_floor_add_one _
    rw [abs_lt]
    constructor
    · rw [hmscast]
      have hxeq : x = 60 * (minutes : ℚ) + (S : ℚ) + frac := by
        rw [hfrac, hremaining]; ring
      rw [hxeq, hMcast]
      linarith
    · have hxeq : x = 60 * (minutes : ℚ) + (S : ℚ) + frac := by
        rw [hfrac, hremaining]; ring
      rw [hxeq, hMcast, hmscast]
      linarith

/-- Witness for C4 at the concrete input 90.5 seconds. -/
theorem C4_witness : (0 : ℚ) ≤ 181 / 2 ∧
    ∃ y : ℚ, convert_time_to_seconds (some (convert_seconds_to_time (some (181 / 2)))) = some y ∧
      |y - 181 / 2| < 1 / 1000 :=
  ⟨by norm_num, C4_time_format_parse_roundtrip (181 / 2) (by norm_num)⟩

/-- Calendar date as parsed by `pd.to_datetime(..., format="%d/%m/%Y")`. -/
structure PDate where
  day : ℕ
  month : ℕ
  year : ℕ
deriving DecidableEq

/-- Gregorian leap-year rule, as pandas applies when validating a date. -/
def isLeapYear (y : ℕ) : Bool := (y % 4 == 0 && y % 100 != 0) || y % 400 == 0

/-- Number of days of a month, used to validate the day segment. -/
def daysInMonth (m y : ℕ) : ℕ :=
  if m = 2 then (if isLeapYear y then 29 else 28)
  else if m = 4 ∨ m = 6 ∨ m = 9 ∨ m = 11 then 30
  else 31

/-- `pd.to_datetime(s, format="%d/%m/%Y")` on one cell: three numeric
segments separated by `'/'`, with calendar validation. -/
def parseDateDMY (l : List Char) : Option PDate :=
  match splitOnChar '/' l with
  | [d, m, y] => do
    let dv ← parseNatSeg d
    let mv ← parseNatSeg m
    let yv ← parseNatSeg y
    if 1 ≤ mv ∧ mv ≤ 12 ∧ 1 ≤ dv ∧ dv ≤ daysInMonth mv yv then
      some { day := dv, month := mv, year := yv }
    else none
  | _ => none

/-- `backend/models.py::Circuit` row. String cells that pandas read as `NaN`
are `none`. -/
structure Circuit where
  id : ℕ
  Nom_Circuit : Option String
  Configuration_Piste : Option String
  Longueur : Option String
  Adresse : Option String
deriving DecidableEq

/-- `backend/models.py::Course` row: the persisted fields (`Ecart` and
`Tours` appear in the CSV but are not fields of the SQL model, so the
update loop's `key in Course.model_fields` check drops them and they are
never stored). `Meilleur_Tour` is persisted as its raw text. -/
structure Course where
  id : ℕ
  Section : ℤ
  Pilote : Option String
  Date : Option PDate
  Kart : Option ℤ
  Note : ℤ
  Meilleur_Tour : Option String
  Humidite : ℚ
  circuit_id : ℕ
deriving DecidableEq

/-- The SQLite store as a record store: the two tables plus the id
sequences the engine assigns on insert. -/
structure St where
  circuits : List Circuit
  courses : List Course
  nextCircuitId : ℕ
  nextCourseId : ℕ
deriving DecidableEq

/-- The `created` / `updated` counters of one upsert run. -/
structure Counts where
  created : ℕ
  updated : ℕ
deriving DecidableEq

/-- A normalized circuit-import row (after the header strip and the
`{'Circuit': 'Nom_Circuit', 'Piste': 'Configuration_Piste'}` rename). -/
structure CircuitRow where
  Nom_Circuit : Option String
  Configuration_Piste : Option String
  Longueur : Option String
  Adresse : Option String
deriving DecidableEq

/-- A normalized course-import row, after the rename and the vectorized
column coercions of `upsert_courses_csv` (`Kart`/`Humidite`/`Section`/
`Note`/`Date`). -/
structure CourseRow where
  Section : ℤ
  Pilote : Option String
  Date : Option PDate
  Kart : Option ℤ
  Note : ℤ
  Meilleur_Tour : Option String
  Humidite : ℚ
  Nom_Circuit : Option String
  Configuration_Piste : Option String
deriving DecidableEq

/-- SQL equality as the `.where(col == value)` comparisons behave on this
data: a missing value is a pandas `NaN`/`NaT`, which binds as SQL `NULL`,
and an SQL equality with a `NULL` on either side is never true — so a
missing key field matches nothing, not even another missing one. -/
def sqlEq {α : Type} [DecidableEq α] : Option α → Option α → Bool
  | some x, some y => decide (x = y)
  | _, _ => false

/-- The natural-key predicate of the circuit lookup (SQL equality on each
component: a `NULL` circuit name or layout never matches). -/
def circuitKeyPred (nom piste : Option String) (c : Circuit) : Bool :=
  sqlEq c.Nom_Circuit nom && sqlEq c.Configuration_Piste piste

/-- `select(Circuit).where(Nom_Circuit == nom, Configuration_Piste == piste)`
followed by `.first()`. -/
def findCircuit (l : List Circuit) (nom piste : Option String) : Option Circuit :=
  l.find? (circuitKeyPred nom piste)

/-- The natural-key predicate of the course lookup: `Section` is a coerced
integer (never `NULL`), while `Pilote` and `Date` compare with SQL
equality — a `NULL` (blank pilot, `NaT` date) never matches. -/
def courseKeyPred (sec : ℤ) (pil : Option String) (d : Option PDate) (c : Course) : Bool :=
  decide (c.Section = sec) && sqlEq c.Pilote pil && sqlEq c.Date d

/-- `select(Course).where(Section == s, Pilote == p, Date == d).first()`. -/
def findCourse (l : List Course) (sec : ℤ) (pil : Option String) (d : Option PDate) :
    Option Course :=
  l.find? (courseKeyPred sec pil d)

/-- In-place mutation of the object returned by `.first()`: replace the
first element satisfying `p`. -/
def updateFirst (p : α → Bool) (f : α → α) : List α → List α
  | [] => []
  | x :: xs => if p x then f x :: xs else x :: updateFirst p f xs

/-- The circuit update loop: every CSV key that is a model field other than
the two natural-key fields is overwritten (`Longueur` and `Adresse`). -/
def applyCircuitRow (r : CircuitRow) (c : Circuit) : Circuit :=
  { c with Longueur := r.Longueur, Adresse := r.Adresse }

/-- The course update loop: every `course_data` key that is a model field
and not `id` or `circuit_id` is overwritten. -/
def applyCourseRow (r : CourseRow) (c : Course) : Course :=
  { c with Section := r.Section, Pilote := r.Pilote, Date := r.Date, Kart := r.Kart,
           Note := r.Note, Meilleur_Tour := r.Meilleur_Tour, Humidite := r.Humidite }

/-- `Course(**course_data)` at insert time: all row fields plus the
resolved `circuit_id`; the engine assigns `id`. -/
def mkCourse (r : CourseRow) (cid circuitId : ℕ) : Course :=
  { id := cid, Section := r.Section, Pilote := r.Pilote, Date := r.Date, Kart := r.Kart,
    Note := r.Note, Meilleur_Tour := r.Meilleur_Tour, Humidite := r.Humidite,
    circuit_id := circuitId }

/-- One row of the circuit upsert loop. The counter is incremented before
`session.commit()`; if the commit raises, the `except` branch rolls the
store back but the counter keeps its incremented value. -/
def processCircuitRow (oracle : ℕ → Bool) (r : CircuitRow) :
    St × Counts × ℕ → St × Counts × ℕ
  | (st, cnt, ticks) =>
    match findCircuit st.circuits r.Nom_Circuit r.Configuration_Piste with
    | some _ =>
      let newCircuits : List Circuit :=
        updateFirst (circuitKeyPred r.Nom_Circuit r.Configuration_Piste)
          (applyCircuitRow r) st.circuits
      let staged : St := { st with circuits := newCircuits }
      let cnt2 : Counts := { cnt with updated := cnt.updated + 1 }
      if oracle ticks then (staged, cnt2, ticks + 1) else (st, cnt2, ticks + 1)
    | none =>
      let staged : St :=
        { st with
            circuits := st.circuits ++
              [{ id := st.nextCircuitId, Nom_Circuit := r.Nom_Circuit,
                 Configuration_Piste := r.Configuration_Piste,
                 Longueur := r.Longueur, Adresse := r.Adresse }],
            nextCircuitId := st.nextCircuitId + 1 }
      let cnt2 : Counts := { cnt with created := cnt.created + 1 }
      if oracle ticks then (staged, cnt2, ticks + 1) else (st, cnt2, ticks + 1)

/-- `upsert_circuits_csv`'s row loop over already-normalized rows. -/
def upsertCircuits (oracle : ℕ → Bool) (st : St) (rows : List CircuitRow) : St × Counts :=
  let z := rows.foldl (fun a r => processCircuitRow oracle r a) (st, { created := 0, updated := 0 }, 0)
  (z.1, z.2.1)

/-- Python tuple-key equality for the per-batch cache dict: `nan == nan`
is false in Python, so a key with a missing component never equals any
key, its own earlier insertion included. -/
def keyEq (a b : Option String × Option String) : Bool :=
  sqlEq a.1 b.1 && sqlEq a.2 b.2

/-- The per-batch `circuits_uniques` cache: a dict keyed by the circuit
natural-key pair, holding resolved circuit objects; a `NaN`-component key
never hits. -/
def cacheGet (cache : List ((Option String × Option String) × Circuit))
    (k : Option String × Option String) : Option Circuit :=
  (cache.find? (fun e => keyEq e.1 k)).map (fun e => e.2)

/-- The accumulator of the course upsert loop: store, per-batch circuit
cache, counters, and the number of commit calls made so far. -/
structure RunSt where
  st : St
  cache : List ((Option String × Option String) × Circuit)
  cnt : Counts
  ticks : ℕ

/-- The course-table effect of the update branch: overwrite the non-key
fields of the first natural-key match in place. -/
def courseUpd (r : CourseRow) (l : List Course) : List Course :=
  updateFirst (courseKeyPred r.Section r.Pilote r.Date) (applyCourseRow r) l

/-- Step 2 of one course row: look up the course by natural key, overwrite
non-key fields on a hit or insert a fresh course on a miss, incrementing
the counter before the commit; a failing commit rolls the store back and
keeps the counter. -/
def courseStep2 (oracle : ℕ → Bool) (r : CourseRow) (cobj : Circuit) (st : St)
    (cache : List ((Option String × Option String) × Circuit)) (cnt : Counts)
    (ticks : ℕ) : RunSt :=
  match findCourse st.courses r.Section r.Pilote r.Date with
  | some _ =>
    let staged : St := { st with courses := courseUpd r st.courses }
    let cnt2 : Counts := { cnt with updated := cnt.updated + 1 }
    if oracle ticks then { st := staged, cache := cache, cnt := cnt2, ticks := ticks + 1 }
    else { st := st, cache := cache, cnt := cnt2, ticks := ticks + 1 }
  | none =>
    let staged : St :=
      { st with courses := st.courses ++ [mkCourse r st.nextCourseId cobj.id],
                nextCourseId := st.nextCourseId + 1 }
    let cnt2 : Counts := { cnt with created := cnt.created + 1 }
    if oracle ticks then { st := staged, cache := cache, cnt := cnt2, ticks := ticks + 1 }
    else { st := st, cache := cache, cnt := cnt2, ticks := ticks + 1 }

/-- The placeholder Circuit created when a course row names a circuit
absent from the store: `Longueur = Adresse = "N/A"`. -/
def placeholderCircuit (r : CourseRow) (cid : ℕ) : Circuit :=
  { id := cid, Nom_Circuit := r.Nom_Circuit, Configuration_Piste := r.Configuration_Piste,
    Longueur := some "N/A", Adresse := some "N/A" }

/-- One row of the course upsert loop. Step 1 resolves the circuit through
the cache, then the store, then by creating a committed placeholder circuit
(`Longueur = Adresse = "N/A"`); if that creation commit raises, the row is
aborted before any counter increment. The cache is only filled after a
successful resolution, as in the source. -/
def processCourseRow (oracle : ℕ → Bool) (r : CourseRow) (a : RunSt) : RunSt :=
  let key : Option String × Option String := (r.Nom_Circuit, r.Configuration_Piste)
  match cacheGet a.cache key with
  | some cobj => courseStep2 oracle r cobj a.st a.cache a.cnt a.ticks
  | none =>
    match findCircuit a.st.circuits r.Nom_Circuit r.Configuration_Piste with
    | some cobj => courseStep2 oracle r cobj a.st (a.cache ++ [(key, cobj)]) a.cnt a.ticks
    | none =>
      let cobj : Circuit := placeholderCircuit r a.st.nextCircuitId
      if oracle a.ticks then
        courseStep2 oracle r cobj
          { a.st with circuits := a.st.circuits ++ [cobj],
                      nextCircuitId := a.st.nextCircuitId + 1 }
          (a.cache ++ [(key, cobj)]) a.cnt (a.ticks + 1)
      else
        { st := a.st, cache := a.cache, cnt := a.cnt, ticks := a.ticks + 1 }

/-- `upsert_courses_csv`'s row loop over already-normalized rows. -/
def upsertCourses (oracle : ℕ → Bool) (st : St) (rows : List CourseRow) : St × Counts :=
  let z := rows.foldl (fun a r => processCourseRow oracle r a)
    { st := st, cache := [], cnt := { created := 0, updated := 0 }, ticks := 0 }
  (z.st, z.cnt)

/-- A direct `session.add(Circuit(...)); session.commit()` against the
table as `models.py` actually declares it: the
`__table_args__ = ({"unique_constraint": "uq_circuit_piste"})` dict is not
a `UniqueConstraint` declaration (a valid one would pass
`UniqueConstraint("Nom_Circuit", "Configuration_Piste")` in a tuple), and
`Field(index=True)` creates non-unique indexes, so no uniqueness is
enforced at the store boundary and the insert appends unconditionally. -/
def insertCircuit (st : St) (nom piste longueur adresse : Option String) : St :=
  { st with
      circuits := st.circuits ++
        [{ id := st.nextCircuitId, Nom_Circuit := nom, Configuration_Piste := piste,
           Longueur := longueur, Adresse := adresse }],
      nextCircuitId := st.nextCircuitId + 1 }

/-- A raw course CSV row after `pd.read_csv` and the column rename: every
cell is text or missing. -/
structure RawCourseRow where
  Section : Option String
  Pilote : Option String
  Date : Option String
  Kart : Option String
  Note : Option String
  Meilleur_Tour : Option String
  Humidite : Option String
  Nom_Circuit : Option String
  Configuration_Piste : Option String
deriving DecidableEq

/-- `df[col].fillna(dflt).astype(int)` on one cell: a missing cell becomes
the default, a non-numeric cell fails (pandas raises for the whole column,
so the whole payload is rejected). -/
def intCell (dflt : ℤ) (c : Option String) : Option ℤ :=
  match c with
  | none => some dflt
  | some s => parsePyInt s.toList

/-- `df['Kart'].fillna(-1).astype(int).replace({-1: None})` on one cell:
blank becomes the `-1` sentinel which is translated back to absent. -/
def kartCell (c : Option String) : Option (Option ℤ) :=
  match c with
  | none => some none
  | some s => (parsePyInt s.toList).map (fun k => if k = -1 then none else some k)

/-- `df['Humidite'].fillna(0.0).astype(float)` on one cell. -/
def floatCell (dflt : ℚ) (c : Option String) : Option ℚ :=
  match c with
  | none => some dflt
  | some s => parsePyFloat s.toList

/-- `pd.to_datetime(df['Date'], format='%d/%m/%Y', errors='coerce').dt.date`
on one cell: unparsable or blank dates coerce to `NaT`, never failing. -/
def dateCell (c : Option String) : Option PDate :=
  match c with
  | none => none
  | some s => parseDateDMY s.toList

/-- The vectorized preparation block of `upsert_courses_csv` applied to one
row. In the source the coercions run column-wise; any unparsable
`Kart`/`Humidite`/`Section`/`Note` cell raises there, which the handler
turns into a payload-level 422 — modelled by `none` for the whole batch. -/
def rowCoerce (r : RawCourseRow) : Option CourseRow := do
  let kart ← kartCell r.Kart
  let hum ← floatCell 0 r.Humidite
  let sec ← intCell 0 r.Section
  let note ← intCell 0 r.Note
  pure { Section := sec, Pilote := r.Pilote, Date := dateCell r.Date, Kart := kart,
         Note := note, Meilleur_Tour := r.Meilleur_Tour, Humidite := hum,
         Nom_Circuit := r.Nom_Circuit, Configuration_Piste := r.Configuration_Piste }

/-- The whole preparation block: all rows coerce or the payload fails. -/
def preprocessCourses : List RawCourseRow → Option (List CourseRow)
  | [] => some []
  | r :: rest => do
    let cr ← rowCoerce r
    let crs ← preprocessCourses rest
    pure (cr :: crs)

/-- The `/courses/import` handler after CSV decoding: vectorized
preparation (whose failure is the 422 structural error, `none`), then the
row loop. -/
def upsertCoursesCsv (oracle : ℕ → Bool) (st : St) (raws : List RawCourseRow) :
    Option (St × Counts) :=
  (preprocessCourses raws).map (upsertCourses oracle st)

/-- A record as seen by `backend/utils.py::apply_filters`: pilot, circuit
and a humidity value that may be missing (`NaN`). -/
structure FilterRec where
  Pilote : String
  Circuit : String
  Humidite : Option ℚ
deriving DecidableEq

/-- `df['Humidite'] >= b` on one cell: a `NaN` comparison is `False`. -/
def humGe (h : Option ℚ) (b : ℚ) : Bool :=
  match h with
  | none => false
  | some v => decide (b ≤ v)

/-- `df['Humidite'] <= b` on one cell: a `NaN` comparison is `False`. -/
def humLe (h : Option ℚ) (b : ℚ) : Bool :=
  match h with
  | none => false
  | some v => decide (v ≤ b)

/-- `backend/utils.py::apply_filters`: the conjunction of the pilot
set-membership mask, the circuit equality mask and the inclusive humidity
range masks. -/
def apply_filters (rows : List FilterRec) (selectedPilots : List String)
    (selectedCircuit : String) (minHumidity maxHumidity : ℚ) : List FilterRec :=
  rows.filter (fun r =>
    selectedPilots.contains r.Pilote &&
    decide (r.Circuit = selectedCircuit) &&
    humGe r.Humidite minHumidity &&
    humLe r.Humidite maxHumidity)

/-- The trivial commit oracle: every `session.commit()` succeeds. -/
def alwaysOk : ℕ → Bool := fun _ => true

theorem find?_append_left {α : Type} {p : α → Bool} {l₁ l₂ : List α} {c : α}
    (h : l₁.find? p = some c) : (l₁ ++ l₂).find? p = some c := by
  induction l₁ with
  | nil => simp [List.find?] at h
  | cons x t iht =>
    rw [List.cons_append, List.find?]
    rw [List.find?] at h
    cases hp : p x with
    | true => simpa [hp] using h
    | false =>
      rw [hp] at h
      simpa [hp] using iht h

theorem updateFirst_of_find?_eq_none {α : Type} {p : α → Bool} {f : α → α}
    {l : List α} (h : l.find? p = none) : updateFirst p f l = l := by
  induction l with
  | nil => rfl
  | cons x t iht =>
    rw [List.find?] at h
    cases hp : p x with
    | true => rw [hp] at h; exact absurd h (by simp)
    | false =>
      rw [hp] at h
      rw [updateFirst, if_neg (by simp [hp]), iht h]

theorem find?_updateFirst {α : Type} {p : α → Bool} {f : α → α} {l : List α} {c : α}
    (h : l.find? p = some c) (hf : p (f c) = true) :
    (updateFirst p f l).find? p = some (f c) := by
  induction l with
  | nil => simp [List.find?] at h
  | cons x t iht =>
    rw [List.find?] at h
    cases hp : p x with
    | true =>
      rw [hp] at h
      simp only [Option.some_inj] at h
      subst h
      rw [updateFirst, if_pos hp, List.find?, hf]
    | false =>
      rw [hp] at h
      rw [updateFirst, if_neg (by simp [hp]), List.find?, hp]
      exact iht h

/-- C8: the backend time parser maps `"1:30.500"` to 90.5 seconds and
`"45.250"` to 45.25 seconds, and maps the empty string to the missing
sentinel (`NaN`, here `none`) instead of raising. -/
theorem C8_time_codec_examples :
    convert_time_to_seconds (some ("1:30.500".toList)) = some (181 / 2) ∧
    convert_time_to_seconds (some ("45.250".toList)) = some (181 / 4) ∧
    convert_time_to_seconds (some ("".toList)) = none := by
  refine ⟨?_, ?_, ?_⟩
  · have hsh : "1:30.500".toList = ['1'] ++ (':' :: (['3', '0'] ++ ('.' :: ['5', '0', '0']))) := by
      decide
    rw [hsh, convert_time_to_seconds_of_shape (by decide) (by decide) (by decide) (by decide)
      (by decide) (by decide)]
    have d1 : digitsVal ['1'] = 1 := by decide
    have d2 : digitsVal ['3', '0'] = 30 := by decide
    have d3 : digitsVal ['5', '0', '0'] = 500 := by decide
    rw [d1, d2, d3]
    rw [Option.some_inj]
    norm_num
  · have hsh : "45.250".toList = ['4', '5'] ++ ('.' :: ['2', '5', '0']) := by decide
    rw [hsh, convert_time_to_seconds_of_shape2 (by decide) (by decide) (by decide) (by decide)]
    have d1 : digitsVal ['4', '5'] = 45 := by decide
    have d2 : digitsVal ['2', '5', '0'] = 250 := by decide
    rw [d1, d2]
    rw [Option.some_inj]
    norm_num
  · rfl

/-- C9: under `apply_filters` with humidity bounds `[20, 100]`, a record is
kept exactly when it came from the input, passes the categorical pilot and
circuit selections, and has a present humidity value lying inclusively
between 20 and 100; in particular every record with missing humidity and
every record with humidity below 20 is excluded, and a missing value never
satisfies the range filter. -/
theorem C9_humidity_range_filter (rows : List FilterRec) (pilots : List String)
    (circ : String) (r : FilterRec) :
    r ∈ apply_filters rows pilots circ 20 100 ↔
      r ∈ rows ∧ r.Pilote ∈ pilots ∧ r.Circuit = circ ∧
        ∃ h : ℚ, r.Humidite = some h ∧ 20 ≤ h ∧ h ≤ 100 := by
  rw [apply_filters, List.mem_filter]
  cases hh : r.Humidite with
  | none => simp [humGe, hh]
  | some v => simp [humGe, humLe, hh, and_assoc]

/-- C7 counterexample: `"45.250"` is accepted by the persistence-path
parser (45.25 seconds), but the analysis-path parser requires a colon and
returns its failure value 0.0, so the two parsers disagree on a text the
persistence path accepts. -/
theorem C7_counterexample :
    convert_time_to_seconds (some ("45.250".toList)) = some (181 / 4) ∧
    frontendTimeToSeconds ("45.250".toList) = 0 ∧
    (181 / 4 : ℚ) ≠ 0 := by
  refine ⟨?_, by decide, by norm_num⟩
  have hsh : "45.250".toList = ['4', '5'] ++ ('.' :: ['2', '5', '0']) := by decide
  rw [hsh, convert_time_to_seconds_of_shape2 (by decide) (by decide) (by decide) (by decide)]
  have d1 : digitsVal ['4', '5'] = 45 := by decide
  have d2 : digitsVal ['2', '5', '0'] = 250 := by decide
  rw [d1, d2, Option.some_inj]
  norm_num

/-- C7 amended: the two parsers agree on every lap-time text of the
colon form `M:SS.mmm` whose three segments are nonempty digit strings;
texts of the no-colon `SS.mmm` form are parsed by the persistence path but
mapped to the failure value 0.0 by the analysis path. -/
theorem C7_amended_parsers_agree_on_colon_form {m s ms : List Char}
    (hm1 : m ≠ []) (hm2 : m.all isDigitChar = true)
    (hs1 : s ≠ []) (hs2 : s.all isDigitChar = true)
    (hms1 : ms ≠ []) (hms2 : ms.all isDigitChar = true) :
    ∃ q : ℚ,
      convert_time_to_seconds (some (m ++ (':' :: (s ++ ('.' :: ms))))) = some q ∧
      frontendTimeToSeconds (m ++ (':' :: (s ++ ('.' :: ms)))) = q := by
  refine ⟨_, convert_time_to_seconds_of_shape hm1 hm2 hs1 hs2 hms1 hms2, ?_⟩
  have hmc : ':' ∉ m := not_mem_of_all_digits hm2 (by decide)
  have hrest : ':' ∉ s ++ ('.' :: ms) := by
    intro hmem
    rcases List.mem_append.1 hmem with h | h
    · exact (not_mem_of_all_digits hs2 (by decide)) h
    · rcases List.mem_cons.1 h with h' | h'
      · exact absurd h' (by decide)
      · exact (not_mem_of_all_digits hms2 (by decide)) h'
  have hsplit1 : splitOnChar ':' (m ++ (':' :: (s ++ ('.' :: ms)))) =
      [m, s ++ ('.' :: ms)] := by
    rw [splitOnChar_append hmc, splitOnChar_of_not_mem hrest]
  have hsc : '.' ∉ s := not_mem_of_all_digits hs2 (by decide)
  have hsplit2 : splitOnChar '.' (s ++ ('.' :: ms)) = [s, ms] := by
    rw [splitOnChar_append hsc,
      splitOnChar_of_not_mem (not_mem_of_all_digits hms2 (by decide))]
  rw [frontendTimeToSeconds, hsplit1]
  simp only [hsplit2, parsePyInt_of_digits hm1 hm2, parsePyInt_of_digits hs1 hs2,
    parsePyInt_of_digits hms1 hms2]
  push_cast
  ring

/-- Witness for the amended C7 at the concrete text `"1:30.500"`. -/
theorem C7_witness :
    (['1'] : List Char) ≠ [] ∧
    ∃ q : ℚ,
      convert_time_to_seconds (some (['1'] ++ (':' :: (['3', '0'] ++ ('.' :: ['5', '0', '0']))))) =
        some q ∧
      frontendTimeToSeconds (['1'] ++ (':' :: (['3', '0'] ++ ('.' :: ['5', '0', '0'])))) = q :=
  ⟨by decide, C7_amended_parsers_agree_on_colon_form (by decide) (by decide) (by decide)
    (by decide) (by decide) (by decide)⟩

/-- The empty store (id sequences start at 1, as SQLite assigns). -/
def demoSt0 : St := { circuits := [], courses := [], nextCircuitId := 1, nextCourseId := 1 }

/-- A well-formed raw course row: every non-blank cell is parsable. Only
`Pilote` and the humidity cell vary here; the date is 5 March 2024. -/
def demoRaw (pil : String) : RawCourseRow :=
  { Section := some "1", Pilote := some pil, Date := some "05/03/2024",
    Kart := some "0", Note := some "8", Meilleur_Tour := some "45.250",
    Humidite := none, Nom_Circuit := some "Kartland Moissy",
    Configuration_Piste := some "Court" }

/-- C5 counterexample: a CSV row whose `Kart` cell is the explicit text
`"0"` is stored with `Kart = 0` — a zero stored as a valid kart number,
because `fillna(-1).astype(int).replace({-1: None})` only translates the
`-1` sentinel back to absent. -/
theorem C5_counterexample :
    (upsertCoursesCsv alwaysOk demoSt0 [demoRaw "Alice"]).map
      (fun p => p.1.courses.map (fun c => c.Kart)) = some [some 0] := by
  decide

/-- C5 amended: a blank `Kart` cell is coerced to absent (not zero), and
the `-1` sentinel used during coercion never survives as a stored kart
number; however an explicit `0` (or any negative value other than `-1`) in
the CSV is stored as-is, as a valid kart number. -/
theorem C5_amended_kart_sentinel :
    kartCell none = some none ∧
    (∀ (v : Option String) (k : ℤ), kartCell v = some (some k) → k ≠ -1) := by
  constructor
  · rfl
  · intro v k h
    cases v with
    | none => simp [kartCell] at h
    | some s =>
      rw [kartCell] at h
      cases hp : parsePyInt s.toList with
      | none => rw [hp] at h; simp at h
      | some j =>
        rw [hp] at h
        by_cases hj : j = -1
        · simp [hj] at h
        · simp [hj] at h
          omega

/-- Witness for the amended C5: the cell `"5"` is stored as kart 5, which
the theorem certifies is not the sentinel. -/
theorem C5_witness :
    kartCell (some "5") = some (some 5) ∧ (5 : ℤ) ≠ -1 :=
  ⟨by decide, C5_amended_kart_sentinel.2 (some "5") 5 (by decide)⟩

/-- The circuit-import row used in the C2 scenario, with the overwriting
length `1000m`. -/
def c2Row : CircuitRow :=
  { Nom_Circuit := some "Kartland Moissy", Configuration_Piste := some "Court",
    Longueur := some "1000m", Adresse := some "Addr" }

/-- C2 evaluated at its failing input: after inserting a Circuit for
(`Kartland Moissy`, `Court`) with `Longueur = "830m"`, a second direct
insert of the same pair with `Longueur = "1000m"` is **not** rejected — the
store ends up holding two circuits with the same natural key, because the
`__table_args__` dict in `models.py` declares no usable unique constraint
(the repo's own `test_contrainte_unicite_circuit` expects the second commit
to raise). The upsert path, by contrast, does overwrite `Longueur` on the
existing entity without creating a duplicate. -/
theorem C2_duplicate_insert_not_rejected :
    (List.filter (circuitKeyPred (some "Kartland Moissy") (some "Court"))
      (insertCircuit
        (insertCircuit demoSt0 (some "Kartland Moissy") (some "Court")
          (some "830m") (some "Addr"))
        (some "Kartland Moissy") (some "Court") (some "1000m")
        (some "Addr")).circuits).length = 2 ∧
    (upsertCircuits alwaysOk
        (insertCircuit demoSt0 (some "Kartland Moissy") (some "Court")
          (some "830m") (some "Addr"))
        [c2Row]).1.circuits =
      [{ id := 1, Nom_Circuit := some "Kartland Moissy",
         Configuration_Piste := some "Court", Longueur := some "1000m",
         Adresse := some "Addr" }] ∧
    (upsertCircuits alwaysOk
        (insertCircuit demoSt0 (some "Kartland Moissy") (some "Court")
          (some "830m") (some "Addr"))
        [c2Row]).2 = { created := 0, updated := 1 } := by
  decide

/-- The one bad row of the C3 batch: its `Section` cell is unparsable. -/
def c3BadRaw : RawCourseRow :=
  let base := demoRaw "Zoe"
  { base with Section := some "abc" }

/-- The C3 batch: one row with an unparsable natural-key `Section` cell and
nine otherwise-valid rows. -/
def c3Raws : List RawCourseRow :=
  c3BadRaw :: (["p1", "p2", "p3", "p4", "p5", "p6", "p7", "p8", "p9"].map demoRaw)

/-- C3 counterexample: on a batch of one unparsable-`Section` row plus nine
valid rows, the vectorized `astype(int)` coercion raises for the whole
column, so the handler rejects the entire payload (HTTP 422): there is no
result with `created + updated == 9`, no sibling row is processed, and no
row-error list is returned. -/
theorem C3_counterexample :
    preprocessCourses c3Raws = none ∧
    upsertCoursesCsv alwaysOk demoSt0 c3Raws = none := by
  decide

theorem rowCoerce_none_of_bad_section {r : RawCourseRow}
    (h : intCell 0 r.Section = none) : rowCoerce r = none := by
  rw [rowCoerce]
  cases hk : kartCell r.Kart with
  | none => rfl
  | some kart =>
    cases hh : floatCell 0 r.Humidite with
    | none => rfl
    | some hum => simp [h]

theorem preprocessCourses_none_of_mem {raws : List RawCourseRow} {r : RawCourseRow}
    (hr : r ∈ raws) (h : rowCoerce r = none) : preprocessCourses raws = none := by
  induction raws with
  | nil => exact absurd hr (List.not_mem_nil r)
  | cons x t iht =>
    rcases List.mem_cons.1 hr with rfl | hmem
    · rw [preprocessCourses, h]
      rfl
    · rw [preprocessCourses]
      cases hx : rowCoerce x with
      | none => rfl
      | some cx => simp [iht hmem]

/-- C3 amended: a batch containing any row whose `Section` cell fails the
vectorized integer coercion is rejected **as a whole** at the preparation
stage (the 422 structural error): no row is upserted, so there is no
`created + updated == 9` partial result. Row-level failures inside the loop
are only printed to the log; the success response carries just the message
and the two counters, never an error list. -/
theorem C3_amended_bad_section_rejects_whole_batch (oracle : ℕ → Bool) (st : St)
    (raws : List RawCourseRow) (r : RawCourseRow) (hr : r ∈ raws)
    (hbad : intCell 0 r.Section = none) :
    upsertCoursesCsv oracle st raws = none := by
  rw [upsertCoursesCsv,
    preprocessCourses_none_of_mem hr (rowCoerce_none_of_bad_section hbad)]
  rfl

/-- Witness for the amended C3 at the concrete ten-row batch. -/
theorem C3_witness :
    c3BadRaw ∈ c3Raws ∧ intCell 0 c3BadRaw.Section = none ∧
    upsertCoursesCsv alwaysOk demoSt0 c3Raws = none :=
  ⟨by decide, by decide,
    C3_amended_bad_section_rejects_whole_batch alwaysOk demoSt0 c3Raws c3BadRaw
      (by decide) (by decide)⟩

/-- A C9 witness record: present humidity 50, matching the selections. -/
def demoRec : FilterRec := { Pilote := "Alice", Circuit := "Kartland", Humidite := some 50 }

/-- Witness for C9: a concrete in-bounds record is kept. -/
theorem C9_witness : demoRec ∈ apply_filters [demoRec] ["Alice"] "Kartland" 20 100 :=
  (C9_humidity_range_filter [demoRec] ["Alice"] "Kartland" demoRec).mpr
    ⟨by decide, by decide, rfl, 50, rfl, by norm_num, by norm_num⟩

theorem courseStep2_found {r : CourseRow} {st : St} {c : Course}
    (cobj : Circuit) (cache : List ((Option String × Option String) × Circuit))
    (cnt : Counts) (t : ℕ)
    (h : findCourse st.courses r.Section r.Pilote r.Date = some c) :
    courseStep2 alwaysOk r cobj st cache cnt t =
      { st := { st with courses := courseUpd r st.courses },
        cache := cache, cnt := { cnt with updated := cnt.updated + 1 },
        ticks := t + 1 } := by
  rw [courseStep2, h]
  simp [alwaysOk]

theorem sqlEq_eq_true {α : Type} [DecidableEq α] {a b : Option α}
    (h : sqlEq a b = true) : ∃ x, a = some x ∧ b = some x := by
  cases a with
  | none => simp [sqlEq] at h
  | some x =>
    cases b with
    | none => simp [sqlEq] at h
    | some y =>
      simp only [sqlEq, decide_eq_true_eq] at h
      exact ⟨x, rfl, by rw [h]⟩

/-- A matched course keeps matching after its non-key fields are
overwritten: the match itself guarantees the row's key fields are
present. -/
theorem courseKeyPred_applyCourseRow_of_found {r : CourseRow} {c : Course}
    (h : courseKeyPred r.Section r.Pilote r.Date c = true) :
    courseKeyPred r.Section r.Pilote r.Date (applyCourseRow r c) = true := by
  simp only [courseKeyPred, Bool.and_eq_true, decide_eq_true_eq] at h
  obtain ⟨⟨hsec, hpil⟩, hdate⟩ := h
  obtain ⟨x, hcx, hrx⟩ := sqlEq_eq_true hpil
  obtain ⟨y, hcy, hry⟩ := sqlEq_eq_true hdate
  simp only [courseKeyPred, applyCourseRow, Bool.and_eq_true, decide_eq_true_eq]
  refine ⟨⟨by trivial, ?_⟩, ?_⟩
  · rw [hrx]; simp [sqlEq]
  · rw [hry]; simp [sqlEq]

/-- C6: when a course row matches an existing Course by natural key, the
upsert overwrites only the non-key data fields (`applyCourseRow`, which by
definition keeps `id` and `circuit_id`) and leaves `circuit_id` exactly as
it was — whatever circuit the incoming row names. -/
theorem C6_circuit_id_frozen_on_update (st : St) (r : CourseRow) (c : Course)
    (h : findCourse st.courses r.Section r.Pilote r.Date = some c) :
    ∃ c2 : Course,
      findCourse ((upsertCourses alwaysOk st [r]).1).courses r.Section r.Pilote r.Date =
        some c2 ∧
      c2.circuit_id = c.circuit_id ∧ c2 = applyCourseRow r c := by
  refine ⟨applyCourseRow r c, ?_, rfl, rfl⟩
  have hcg : cacheGet ([] : List ((Option String × Option String) × Circuit))
      (r.Nom_Circuit, r.Configuration_Piste) = none := rfl
  simp only [upsertCourses, List.foldl_cons, List.foldl_nil, processCourseRow, hcg]
  cases hfc : findCircuit st.circuits r.Nom_Circuit r.Configuration_Piste with
  | some cobj =>
    dsimp only
    rw [courseStep2_found cobj _ _ _ h]
    exact find?_updateFirst h (courseKeyPred_applyCourseRow_of_found (List.find?_some h))
  | none =>
    simp only [alwaysOk, if_true, courseStep2]
    rw [h]
    exact find?_updateFirst h (courseKeyPred_applyCourseRow_of_found (List.find?_some h))

/-- The demonstration date 5 March 2024. -/
def demoDate : PDate := { day := 5, month := 3, year := 2024 }

/-- A stored course pointing at circuit 7. -/
def demoCourse : Course :=
  { id := 1, Section := 1, Pilote := some "Alice", Date := some demoDate, Kart := none,
    Note := 8, Meilleur_Tour := some "45.250", Humidite := 0, circuit_id := 7 }

/-- A store holding circuit 7 and the course above. -/
def demoSt6 : St :=
  { circuits := [{ id := 7, Nom_Circuit := some "Old", Configuration_Piste := some "Std",
                   Longueur := some "800m", Adresse := some "A" }],
    courses := [demoCourse], nextCircuitId := 8, nextCourseId := 2 }

/-- A row with the same natural key but naming a different circuit. -/
def demoRow6 : CourseRow :=
  { Section := 1, Pilote := some "Alice", Date := some demoDate, Kart := some 4, Note := 9,
    Meilleur_Tour := some "44.000", Humidite := 0, Nom_Circuit := some "New",
    Configuration_Piste := some "Std" }

/-- Witness for C6: updating through a row that names a different circuit
leaves `circuit_id = 7` in place. -/
theorem C6_witness :
    findCourse demoSt6.courses demoRow6.Section demoRow6.Pilote demoRow6.Date =
      some demoCourse ∧
    ∃ c2 : Course,
      findCourse ((upsertCourses alwaysOk demoSt6 [demoRow6]).1).courses
        demoRow6.Section demoRow6.Pilote demoRow6.Date = some c2 ∧
      c2.circuit_id = demoCourse.circuit_id ∧ c2 = applyCourseRow demoRow6 demoCourse :=
  ⟨by decide, C6_circuit_id_frozen_on_update demoSt6 demoRow6 demoCourse (by decide)⟩

theorem processCircuitRow_counts (oracle : ℕ → Bool) (r : CircuitRow) (st : St)
    (cnt : Counts) (t : ℕ) :
    (processCircuitRow oracle r (st, cnt, t)).2.1.created +
      (processCircuitRow oracle r (st, cnt, t)).2.1.updated =
        cnt.created + cnt.updated + 1 := by
  simp only [processCircuitRow]
  split
  · split <;> simp <;> omega
  · split <;> simp <;> omega

theorem upsertCircuits_counts_aux (oracle : ℕ → Bool) (rows : List CircuitRow) :
    ∀ acc : St × Counts × ℕ,
      (rows.foldl (fun a r => processCircuitRow oracle r a) acc).2.1.created +
        (rows.foldl (fun a r => processCircuitRow oracle r a) acc).2.1.updated =
          acc.2.1.created + acc.2.1.updated + rows.length := by
  induction rows with
  | nil => intro acc; simp
  | cons r t iht =>
    intro acc
    obtain ⟨st, cnt, ticks⟩ := acc
    rw [List.foldl_cons, iht, processCircuitRow_counts]
    simp
    omega

theorem courseStep2_counts (oracle : ℕ → Bool) (r : CourseRow) (cobj : Circuit) (st : St)
    (cache : List ((Option String × Option String) × Circuit)) (cnt : Counts) (t : ℕ) :
    (courseStep2 oracle r cobj st cache cnt t).cnt.created +
      (courseStep2 oracle r cobj st cache cnt t).cnt.updated =
        cnt.created + cnt.updated + 1 := by
  simp only [courseStep2]
  split
  · split <;> simp <;> omega
  · split <;> simp <;> omega

theorem processCourseRow_counts_le (oracle : ℕ → Bool) (r : CourseRow) (a : RunSt) :
    (processCourseRow oracle r a).cnt.created + (processCourseRow oracle r a).cnt.updated ≤
      a.cnt.created + a.cnt.updated + 1 := by
  simp only [processCourseRow]
  split
  · rw [courseStep2_counts]
  · split
    · rw [courseStep2_counts]
    · split
      · rw [courseStep2_counts]
      · simp

theorem upsertCourses_counts_aux (oracle : ℕ → Bool) (rows : List CourseRow) :
    ∀ a : RunSt,
      (rows.foldl (fun a r => processCourseRow oracle r a) a).cnt.created +
        (rows.foldl (fun a r => processCourseRow oracle r a) a).cnt.updated ≤
          a.cnt.created + a.cnt.updated + rows.length := by
  induction rows with
  | nil => intro a; simp
  | cons r t iht =>
    intro a
    rw [List.foldl_cons]
    have h1 := iht (processCourseRow oracle r a)
    have h2 := processCourseRow_counts_le oracle r a
    calc (t.foldl (fun a r => processCourseRow oracle r a) (processCourseRow oracle r a)).cnt.created +
          (t.foldl (fun a r => processCourseRow oracle r a) (processCourseRow oracle r a)).cnt.updated ≤
        (processCourseRow oracle r a).cnt.created + (processCourseRow oracle r a).cnt.updated + t.length := h1
      _ ≤ a.cnt.created + a.cnt.updated + 1 + t.length := by omega
      _ = a.cnt.created + a.cnt.updated + (t.length + 1) := by omega
      _ = a.cnt.created + a.cnt.updated + (r :: t).length := by simp

theorem processCourseRow_ok_counts (r : CourseRow) (a : RunSt) :
    (processCourseRow alwaysOk r a).cnt.created + (processCourseRow alwaysOk r a).cnt.updated =
      a.cnt.created + a.cnt.updated + 1 := by
  simp only [processCourseRow]
  split
  · rw [courseStep2_counts]
  · split
    · rw [courseStep2_counts]
    · simp only [alwaysOk, if_true]
      rw [courseStep2_counts]

/-- C10 amended: the counters are naturals starting at 0 (non-negative by
construction); every row increments at most one counter by one, so
`created + updated` never exceeds the number of data rows (with equality
for circuit batches, whose rows always reach their staging point); a row
whose run commits successfully increments exactly one counter; a course row
that fails before its entity is staged (its placeholder circuit's creation
commit raises) increments neither and leaves the store untouched — but a
row that fails at its own commit has already incremented its counter, so
the counters can overcount the rows actually committed. -/
theorem C10_amended_counter_discipline :
    (∀ (oracle : ℕ → Bool) (st : St) (rows : List CircuitRow),
      (upsertCircuits oracle st rows).2.created +
        (upsertCircuits oracle st rows).2.updated = rows.length) ∧
    (∀ (oracle : ℕ → Bool) (st : St) (rows : List CourseRow),
      (upsertCourses oracle st rows).2.created +
        (upsertCourses oracle st rows).2.updated ≤ rows.length) ∧
    (∀ (st : St) (r : CourseRow),
      (upsertCourses alwaysOk st [r]).2.created +
        (upsertCourses alwaysOk st [r]).2.updated = 1) ∧
    (∀ (st : St) (r : CourseRow),
      findCircuit st.circuits r.Nom_Circuit r.Configuration_Piste = none →
      upsertCourses (fun _ => false) st [r] = (st, { created := 0, updated := 0 })) := by
  refine ⟨?_, ?_, ?_, ?_⟩
  · intro oracle st rows
    rw [upsertCircuits]
    rw [upsertCircuits_counts_aux]
    simp
  · intro oracle st rows
    rw [upsertCourses]
    have := upsertCourses_counts_aux oracle rows
      { st := st, cache := [], cnt := { created := 0, updated := 0 }, ticks := 0 }
    simpa using this
  · intro st r
    rw [upsertCourses]
    simp only [List.foldl_cons, List.foldl_nil]
    have := processCourseRow_ok_counts r
      { st := st, cache := [], cnt := { created := 0, updated := 0 }, ticks := 0 }
    simpa using this
  · intro st r h
    have hcg : cacheGet ([] : List ((Option String × Option String) × Circuit))
        (r.Nom_Circuit, r.Configuration_Piste) = none := rfl
    rw [upsertCourses]
    simp only [List.foldl_cons, List.foldl_nil, processCourseRow, hcg, h]
    rfl

/-- C10 counterexample: a circuit row whose commit fails leaves the store
unchanged (no entity created), yet the response reports `created == 1` —
the counter is incremented before `session.commit()`, so a failed row does
not "increment neither". -/
theorem C10_counterexample :
    (upsertCircuits (fun _ => false) demoSt0 [c2Row]).2 = { created := 1, updated := 0 } ∧
    (upsertCircuits (fun _ => false) demoSt0 [c2Row]).1 = demoSt0 := by
  decide

/-- Witness for the amended C10: on an empty store with a failing commit
oracle, a course row aborts at the circuit-creation commit and increments
neither counter. -/
theorem C10_witness :
    findCircuit demoSt0.circuits demoRow6.Nom_Circuit demoRow6.Configuration_Piste = none ∧
    upsertCourses (fun _ => false) demoSt0 [demoRow6] =
      (demoSt0, { created := 0, updated := 0 }) :=
  ⟨by decide, C10_amended_counter_discipline.2.2.2 demoSt0 demoRow6 (by decide)⟩

theorem cacheGet_append_some {cache : List ((Option String × Option String) × Circuit)}
    {e : (Option String × Option String) × Circuit}
    {k : Option String × Option String} {c : Circuit}
    (h : cacheGet cache k = some c) : cacheGet (cache ++ [e]) k = some c := by
  rw [cacheGet, Option.map_eq_some'] at h
  obtain ⟨e0, hf, he⟩ := h
  rw [cacheGet, find?_append_left hf]
  simp [he]

